import Mathlib

/-!
# Verification of the cdnstrip address-classification pipeline

Shallow embedding of `main.go` (the concurrent CDN-address classification
tool): the cache-loading branch of `main`, the output-file selection of
`main`, the per-line input normalizer `loadInput`, and the worker body
`strip`.  The `cdn` helper package (`Check`, `ExpandCIDR`) is part of the
repository but its source is not available here; those two functions are
modelled from the design document and are marked as such.  Go standard
library functions used by the code (`strings.Split`, `strings.TrimSpace`,
`net.ParseIP`, `net.ParseCIDR`, `net/url.Parse`) are embedded as
executable Lean functions operating on the string's character list.
-/

/-- ASCII space characters recognised by Go's `strings.TrimSpace`
(`unicode.IsSpace` restricted to ASCII, which covers all inputs the tool
meets in practice): space, tab, newline, carriage return, vertical tab,
form feed. -/
def goIsSpace (c : Char) : Bool :=
  c = ' ' || c = '\t' || c = '\n' || c = '\r' || c = Char.ofNat 11 || c = Char.ofNat 12

/-- Go `strings.TrimSpace`: drop leading and trailing whitespace. -/
def trimSpace (s : String) : String :=
  ⟨((s.data.dropWhile goIsSpace).reverse.dropWhile goIsSpace).reverse⟩

/-- Core of Go `strings.Split` for a one-character separator: split a
character list at every occurrence of `sep`.  Always returns at least one
field; splitting the empty list gives `[[]]`, exactly as
`strings.Split("", sep) = [""]` in Go. -/
def splitChar (sep : Char) : List Char → List (List Char)
  | [] => [[]]
  | c :: cs =>
    match splitChar sep cs with
    | [] => [[]]
    | f :: fs => if c = sep then [] :: f :: fs else (c :: f) :: fs

/-- Go `strings.Split(s, "\n")`. -/
def splitNewline (s : String) : List String :=
  (splitChar '\n' s.data).map (fun l => ⟨l⟩)

/-- `splitChar` never returns the empty list: Go's `strings.Split` always
yields at least one element. -/
theorem splitChar_ne_nil (sep : Char) (l : List Char) : splitChar sep l ≠ [] := by
  cases l with
  | nil => simp [splitChar]
  | cons c cs =>
    simp only [splitChar]
    cases h : splitChar sep cs with
    | nil => simp
    | cons f fs =>
      by_cases hc : c = sep <;> simp [hc]

/-- An IPv4 address as four octets. -/
structure IPv4 where
  a : Nat
  b : Nat
  c : Nat
  d : Nat
deriving DecidableEq

def isDigit (c : Char) : Bool := '0' ≤ c && c ≤ '9'

/-- Decimal value of a digit string. -/
def digitsToNat (l : List Char) : Nat :=
  l.foldl (fun acc c => acc * 10 + (c.toNat - 48)) 0

/-- One dotted-decimal field of an IPv4 address, per Go `net.parseIPv4`:
non-empty, all digits, no leading zero (Go rejects leading zeros since
1.17), value at most 255. -/
def parseOctet (f : List Char) : Option Nat :=
  if f.isEmpty then none
  else if !f.all isDigit then none
  else if decide (1 < f.length) && f.head? = some '0' then none
  else
    let n := digitsToNat f
    if n ≤ 255 then some n else none

/-- Go `net.ParseIP` restricted to IPv4 dotted-quad literals.  IPv6
literals return `none`; in the tool's default configuration every token
containing a colon is filtered out before `ParseIP` is reached, so the
IPv4 fragment is the part the claims exercise. -/
def parseIP (s : String) : Option IPv4 :=
  match splitChar '.' s.data with
  | [fa, fb, fc, fd] => do
    let a ← parseOctet fa
    let b ← parseOctet fb
    let c ← parseOctet fc
    let d ← parseOctet fd
    pure ⟨a, b, c, d⟩
  | _ => none

/-- The canonical dotted-quad form produced by Go's `IP.String()`. -/
def ipString (ip : IPv4) : String :=
  toString ip.a ++ "." ++ toString ip.b ++ "." ++ toString ip.c ++ "." ++ toString ip.d

/-- 32-bit numeric value of an IPv4 address. -/
def toNat32 (ip : IPv4) : Nat :=
  ((ip.a * 256 + ip.b) * 256 + ip.c) * 256 + ip.d

/-- IPv4 address of a 32-bit numeric value. -/
def ofNat32 (n : Nat) : IPv4 :=
  ⟨n / 16777216 % 256, n / 65536 % 256, n / 256 % 256, n % 256⟩

/-- Go `*net.IPNet` for IPv4: the masked 32-bit network value and the
prefix length. -/
structure IPNet where
  net : Nat
  bits : Nat
deriving DecidableEq

/-- Prefix length field of a CIDR literal: non-empty, all digits, at most
32 (Go `net.ParseCIDR` checks `n <= 8*IPv4len`). -/
def parseMaskLen (f : List Char) : Option Nat :=
  if f.isEmpty then none
  else if !f.all isDigit then none
  else
    let n := digitsToNat f
    if n ≤ 32 then some n else none

/-- Go `net.ParseCIDR` for IPv4 literals `address/prefixLength`; the
returned network is the address masked to the prefix.  A string with no
slash or more than one slash fails, exactly as in Go (where the text
after the first slash must be entirely the prefix-length number). -/
def parseCIDR (s : String) : Option IPNet :=
  match splitChar '/' s.data with
  | [addr, mask] => do
    let ip ← parseIP ⟨addr⟩
    let n ← parseMaskLen mask
    pure ⟨toNat32 ip / 2 ^ (32 - n) * 2 ^ (32 - n), n⟩
  | _ => none

/-- Go `(*net.IPNet).Contains`: mask the address and compare with the
network value. -/
def ipnetContains (r : IPNet) (ip : IPv4) : Bool :=
  toNat32 ip / 2 ^ (32 - r.bits) * 2 ^ (32 - r.bits) = r.net

/-- Modelled from the spec: `cdn.Check` lives in the repository's `cdn`
package, whose source is not available here.  Design document §4.1/§4.3:
the verdict is `MatchesRange` exactly when the address is inside at least
one range of the Range Set, so `Check` is membership in at least one
range. -/
def cdn.Check (ranges : List IPNet) (ip : IPv4) : Bool :=
  ranges.any (fun r => ipnetContains r ip)

/-- Modelled from the spec: `cdn.ExpandCIDR` lives in the repository's
`cdn` package, whose source is not available here.  Design document §4.2
step 5: parse the token as a CIDR block and expand it to every individual
host address it contains, inclusive of network and broadcast addresses;
a token that is not a CIDR block is an error. -/
def cdn.ExpandCIDR (s : String) : Except String (List String) :=
  match parseCIDR s with
  | some r =>
    Except.ok ((List.range (2 ^ (32 - r.bits))).map (fun i => ipString (ofNat32 (r.net + i))))
  | none => Except.error "cannot parse CIDR"

/-- Result of Go `net/url.Parse` restricted to the one field `loadInput`
reads: the authority's `host:port` part. -/
structure GoURL where
  host : String
deriving DecidableEq

def isAlpha (c : Char) : Bool :=
  ('a' ≤ c && c ≤ 'z') || ('A' ≤ c && c ≤ 'Z')

def isSchemeChar (c : Char) : Bool :=
  isAlpha c || isDigit c || c = '+' || c = '-' || c = '.'

/-- Scheme recognition of `net/url.getScheme`: if the string has a colon
preceded by a well-formed scheme (a letter followed by letters, digits,
`+`, `-`, `.`), return the text after that first colon; otherwise the
string has no scheme component. -/
def afterSchemeColon : List Char → Option (List Char)
  | [] => none
  | c :: cs =>
    if isAlpha c then go cs else none
where
  go : List Char → Option (List Char)
    | [] => none
    | c :: cs => if c = ':' then some cs else if isSchemeChar c then go cs else none

/-- ASCII control character (Go `net/url` rejects these in a URL). -/
def isCtl (c : Char) : Bool := c.toNat < 32 || c.toNat = 127

/-- Go `strings.LastIndex(auth, "@")` handling of userinfo: the host is
the part of the authority after the last `@`. -/
def dropUserinfo (auth : List Char) : List Char :=
  (auth.reverse.takeWhile (fun c => c ≠ '@')).reverse

/-- Go `net/url.Parse`, restricted to host extraction: parsing fails on
ASCII control characters; for `scheme://authority/...` the host field is
the authority up to the first `/`, `?` or `#` with any userinfo removed;
a URL without a `//` authority has an empty host. -/
def urlParse (s : String) : Option GoURL :=
  if s.data.any isCtl then none
  else
    match afterSchemeColon s.data with
    | some rest =>
      if rest.take 2 = ['/', '/'] then
        let auth := (rest.drop 2).takeWhile (fun c => c ≠ '/' && c ≠ '?' && c ≠ '#')
        some ⟨⟨dropUserinfo auth⟩⟩
      else some ⟨""⟩
    | none => some ⟨""⟩

/-- Go `stripPort`, used by `(*url.URL).Hostname()`: if the host has no
colon it is returned whole; a bracketed IPv6 host is the text inside the
brackets; otherwise the host is cut at the first colon. -/
def stripPort (h : List Char) : List Char :=
  if !h.contains ':' then h
  else if h.contains ']' then
    match h.takeWhile (fun c => c ≠ ']') with
    | '[' :: rest => rest
    | other => other
  else h.takeWhile (fun c => c ≠ ':')

/-- Go `(*url.URL).Hostname()`. -/
def GoURL.hostname (u : GoURL) : String :=
  ⟨stripPort u.host.data⟩

/-- The task record `E` of main.go: the original trimmed input line and
the resolved canonical address string. -/
structure E where
  Raw : String
  IP : String
deriving DecidableEq

/-- Go `strings.HasPrefix(line, "http")`. -/
def hasHttpStart (s : String) : Bool :=
  s.data.take 4 = ['h', 't', 't', 'p']

/-- The working token of `loadInput` (lines 185-189 of main.go): a line
with an `http` scheme-looking start is replaced by its URL host when URL
parsing succeeds, and left untouched when it fails. -/
def workingToken (line : String) : String :=
  if hasHttpStart line then
    match urlParse line with
    | some u => u.hostname
    | none => line
  else line

/-- Classification part of `loadInput`'s loop body (lines 190-203 of
main.go), applied to the trimmed original line `raw` and the working
token `line`: drop colon-bearing tokens unless IPv6 checking is on, then
emit one task for a literal address, one task per expanded address for a
CIDR block, and nothing otherwise. -/
def classifyToken (getIPv6 : Bool) (raw : String) (line : String) : List E :=
  if !getIPv6 && line.data.contains ':' then []
  else
    match parseIP line with
    | some ip => [⟨raw, ipString ip⟩]
    | none =>
      match cdn.ExpandCIDR line with
      | Except.ok cidr => cidr.map (fun ip => ⟨raw, ip⟩)
      | Except.error _ => []

/-- One iteration of `loadInput`'s scanner loop (lines 179-204 of
main.go): trim the line, skip it when empty, otherwise classify the
working token.  `task.Raw` is the trimmed original line, fixed before the
URL rewriting of the token. -/
def loadInputLine (getIPv6 : Bool) (rawLine : String) : List E :=
  let line := trimSpace rawLine
  if line = "" then []
  else classifyToken getIPv6 line (workingToken line)

/-- `loadInput` over a whole input: the tasks sent on the channel, in
order, for a given sequence of input lines. -/
def loadInput (getIPv6 : Bool) (lines : List String) : List E :=
  lines.flatMap (loadInputLine getIPv6)

/-- An open output destination: the lines written to it so far and
whether writes to it currently succeed. -/
structure FileState where
  written : List String
  healthy : Bool
deriving DecidableEq

/-- Go `(*os.File).WriteString`.  The handle is an `Option` because a Go
`*os.File` can be nil: writing to a nil file returns `os.ErrInvalid` and
writes nothing.  A non-nil file appends the string when healthy and
returns an error otherwise.  The pair mirrors Go's `(n, err)` result. -/
def writeString (f : Option FileState) (s : String) : Option FileState × Except String Nat :=
  match f with
  | none => (none, Except.error "invalid argument")
  | some fs =>
    if fs.healthy then (some { fs with written := fs.written ++ [s] }, Except.ok s.length)
    else (some fs, Except.error "write failed")

/-- The shared state touched by a `strip` worker inside its critical
sections: the three counters and the output file. -/
structure StripState where
  validIP : Nat
  invalidIP : Nat
  cdnIP : Nat
  outFile : Option FileState
deriving DecidableEq

/-- One iteration of `strip`'s loop (lines 122-148 of main.go) for one
task: re-parse the task's address; a CDN hit increments `cdnIP`; a miss
increments `validIP` and writes one newline-terminated line, the raw
input line in raw mode and the canonical address otherwise; a parse
failure increments `invalidIP`.  `file.WriteString`'s error result is
discarded, exactly as in the source (only the file component of
`writeString`'s result is kept). -/
def stripTask (ranges : List IPNet) (outputRaw : Bool) (st : StripState) (task : E) :
    StripState :=
  match parseIP task.IP with
  | some i =>
    if cdn.Check ranges i then
      { st with cdnIP := st.cdnIP + 1 }
    else
      let w := writeString st.outFile ((if outputRaw then task.Raw else ipString i) ++ "\n")
      { st with validIP := st.validIP + 1, outFile := w.fst }
  | none => { st with invalidIP := st.invalidIP + 1 }

/-- A whole run of the worker pool over a list of tasks.  Every counter
update and write happens inside one mutex-guarded `stripTask` step, so a
concurrent run with any number of workers is a fold of `stripTask` over
some interleaving (a permutation) of the produced tasks; theorems below
quantify over the task list and therefore over every interleaving. -/
def strip (ranges : List IPNet) (outputRaw : Bool) (st : StripState) (tasks : List E) :
    StripState :=
  tasks.foldl (stripTask ranges outputRaw) st

/-- The verdict of the classifier for one task (design document §4.3),
as computed inside `strip`. -/
inductive Verdict where
  | Invalid
  | MatchesRange
  | NoMatch
deriving DecidableEq

def verdictOf (ranges : List IPNet) (task : E) : Verdict :=
  match parseIP task.IP with
  | none => Verdict.Invalid
  | some i => if cdn.Check ranges i then Verdict.MatchesRange else Verdict.NoMatch

/-- The output handle handed to the workers, from lines 97-104 of
main.go.  `var outFile *os.File` starts as nil; the `"-"` case assigns
`os.Stdout` to it; in the `else` branch the short declaration
`outFile, err := os.Create(*out)` introduces NEW variables scoped to the
branch, shadowing the outer `outFile`, so the outer handle that the
workers receive stays nil for a named output file. -/
def mainOutFile (out : String) : Option FileState :=
  if out = "-" then some ⟨[], true⟩ else none

/-- Where main obtains the Range Set (lines 63-96 of main.go). -/
inductive RangeSource where
  | cache (contents : String)
  | fetch
deriving DecidableEq

/-- The branch decision of main, line 66: `if err == nil || *skipCache`.
`cacheRead` is `ioutil.ReadFile`'s result, `none` on error; on error the
returned bytes are nil, so the cache branch then parses the empty
string. -/
def chooseRangeSource (cacheRead : Option String) (skipCache : Bool) : RangeSource :=
  if cacheRead.isSome || skipCache then RangeSource.cache (cacheRead.getD "")
  else RangeSource.fetch

/-- Outcome of parsing cache contents in main, lines 68-78: either the
`fatal("empty cache file")` branch (which exits the process) or the list
of ranges parsed from the newline-separated literals, malformed literals
skipped. -/
inductive CacheParse where
  | fatalEmpty
  | ok (ranges : List IPNet)
deriving DecidableEq

def readCacheContents (contents : String) : CacheParse :=
  let c := splitNewline contents
  if c.length = 0 then CacheParse.fatalEmpty
  else CacheParse.ok (c.filterMap parseCIDR)

/-! ## Helper lemmas -/

theorem splitNewline_ne_nil (s : String) : splitNewline s ≠ [] := by
  have h := splitChar_ne_nil '\n' s.data
  simp only [splitNewline, ne_eq, List.map_eq_nil_iff]
  exact h

theorem splitNewline_length_pos (s : String) : 0 < (splitNewline s).length :=
  List.length_pos.mpr (splitNewline_ne_nil s)

theorem stripTask_counter_sum (ranges : List IPNet) (outputRaw : Bool) (st : StripState)
    (task : E) :
    (stripTask ranges outputRaw st task).validIP
      + (stripTask ranges outputRaw st task).invalidIP
      + (stripTask ranges outputRaw st task).cdnIP
      = st.validIP + st.invalidIP + st.cdnIP + 1 := by
  cases hp : parseIP task.IP with
  | none => simp [stripTask, hp]; omega
  | some i =>
    by_cases hc : cdn.Check ranges i <;> simp [stripTask, hp, hc] <;> omega

theorem strip_counter_sum (ranges : List IPNet) (outputRaw : Bool) (tasks : List E) :
    ∀ st : StripState,
      (strip ranges outputRaw st tasks).validIP
        + (strip ranges outputRaw st tasks).invalidIP
        + (strip ranges outputRaw st tasks).cdnIP
        = st.validIP + st.invalidIP + st.cdnIP + tasks.length := by
  induction tasks with
  | nil => intro st; simp [strip]
  | cons t ts ih =>
    intro st
    have h1 := stripTask_counter_sum ranges outputRaw st t
    have h2 := ih (stripTask ranges outputRaw st t)
    simp only [strip, List.foldl_cons, List.length_cons] at h2 ⊢
    omega

/-! ## Claim theorems -/

/-- C1 (refuted as stated): the Sink does write exactly the `NoMatch`
addresses, newline-terminated, canonical in default mode and `rawText` in
raw mode — but only to standard output.  For a named output file the
short declaration `outFile, err := os.Create(*out)` in main's `else`
branch shadows the outer `outFile`, so the workers receive a nil handle
and the `WriteString` calls fail invisibly: with output name `out.txt`
and the non-matching task `1.2.3.4`, the valid counter becomes 1 yet the
run ends with no open destination having received any line, while the
same run with output `-` writes `1.2.3.4\n` to standard output (and, in
raw mode, the original line). -/
theorem namedFileOutputLost :
    mainOutFile "out.txt" = none ∧
    (strip [] false ⟨0, 0, 0, mainOutFile "out.txt"⟩ [⟨"1.2.3.4", "1.2.3.4"⟩]).validIP = 1 ∧
    (strip [] false ⟨0, 0, 0, mainOutFile "out.txt"⟩ [⟨"1.2.3.4", "1.2.3.4"⟩]).outFile = none ∧
    (strip [] false ⟨0, 0, 0, mainOutFile "-"⟩ [⟨"1.2.3.4", "1.2.3.4"⟩]).outFile
      = some ⟨["1.2.3.4\n"], true⟩ ∧
    (strip [] true ⟨0, 0, 0, mainOutFile "-"⟩ [⟨"http://1.2.3.4/x", "1.2.3.4"⟩]).outFile
      = some ⟨["http://1.2.3.4/x\n"], true⟩ :=
  ⟨rfl, by decide, by decide, by decide, by decide⟩

/-- C2 (refuted as stated): main's branch condition is
`err == nil || *skipCache`, so when the cache file is unreadable and the
skip-cache flag is SET, the cache branch is still taken, parsing the nil
file contents into an empty Range Set; the range-acquisition operation
`cdn.LoadAll` runs only when the flag is unset. -/
theorem skipCacheAbsentCacheSkipsFetch :
    chooseRangeSource none true = RangeSource.cache "" ∧
    chooseRangeSource none true ≠ RangeSource.fetch ∧
    chooseRangeSource none false = RangeSource.fetch ∧
    readCacheContents "" = CacheParse.ok [] :=
  ⟨rfl, by decide, rfl, by decide⟩

/-- C3: counter conservation.  For any input lines, any Range Set, any
output mode and file handle, and any interleaving (permutation) of the
tasks the Input Normalizer produces, the final `valid + invalid + cdn`
counters equal the number of produced tasks: each task increments exactly
one counter. -/
theorem counterConservation (getIPv6 : Bool) (inputLines : List String) (ranges : List IPNet)
    (outputRaw : Bool) (f : Option FileState) (tasks : List E)
    (hperm : tasks.Perm (loadInput getIPv6 inputLines)) :
    (strip ranges outputRaw ⟨0, 0, 0, f⟩ tasks).validIP
      + (strip ranges outputRaw ⟨0, 0, 0, f⟩ tasks).invalidIP
      + (strip ranges outputRaw ⟨0, 0, 0, f⟩ tasks).cdnIP
      = (loadInput getIPv6 inputLines).length := by
  have h := strip_counter_sum ranges outputRaw tasks ⟨0, 0, 0, f⟩
  simpa [hperm.length_eq] using h

theorem counterConservation_witness :
    (strip [⟨3405803776, 24⟩] false ⟨0, 0, 0, some ⟨[], true⟩⟩
        (loadInput false ["203.0.113.5", "nonsense", "10.0.0.7"])).validIP
      + (strip [⟨3405803776, 24⟩] false ⟨0, 0, 0, some ⟨[], true⟩⟩
          (loadInput false ["203.0.113.5", "nonsense", "10.0.0.7"])).invalidIP
      + (strip [⟨3405803776, 24⟩] false ⟨0, 0, 0, some ⟨[], true⟩⟩
          (loadInput false ["203.0.113.5", "nonsense", "10.0.0.7"])).cdnIP
      = (loadInput false ["203.0.113.5", "nonsense", "10.0.0.7"]).length :=
  counterConservation false ["203.0.113.5", "nonsense", "10.0.0.7"] [⟨3405803776, 24⟩] false
    (some ⟨[], true⟩) (loadInput false ["203.0.113.5", "nonsense", "10.0.0.7"])
    (List.Perm.refl _)

/-- C4: a task whose verdict is `MatchesRange` only increments the `cdn`
counter; the output file is left exactly as it was (no line is written)
and the valid counter is unchanged.  This holds per task, hence in every
run and under every thread count, since each task is handled by exactly
one `stripTask` critical section. -/
theorem matchedNeverWritten (ranges : List IPNet) (outputRaw : Bool) (st : StripState)
    (task : E) (h : verdictOf ranges task = Verdict.MatchesRange) :
    (stripTask ranges outputRaw st task).outFile = st.outFile ∧
    (stripTask ranges outputRaw st task).cdnIP = st.cdnIP + 1 ∧
    (stripTask ranges outputRaw st task).validIP = st.validIP := by
  cases hp : parseIP task.IP with
  | none => simp [verdictOf, hp] at h
  | some i =>
    by_cases hc : cdn.Check ranges i
    · simp [stripTask, hp, hc]
    · simp [verdictOf, hp, hc] at h

theorem matchedNeverWritten_witness :
    verdictOf [⟨3405803776, 24⟩] ⟨"203.0.113.5", "203.0.113.5"⟩ = Verdict.MatchesRange ∧
    (stripTask [⟨3405803776, 24⟩] false ⟨0, 0, 0, some ⟨[], true⟩⟩
        ⟨"203.0.113.5", "203.0.113.5"⟩).outFile = some ⟨[], true⟩ :=
  ⟨by decide,
    (matchedNeverWritten [⟨3405803776, 24⟩] false ⟨0, 0, 0, some ⟨[], true⟩⟩
      ⟨"203.0.113.5", "203.0.113.5"⟩ (by decide)).1⟩

/-- C5: a non-empty trimmed line whose working token (after URL host
extraction) passes the IPv6 filter and parses as a literal address yields
exactly one task, with the canonical address string and the original
trimmed line as `Raw` — not the extracted host. -/
theorem literalAddressSingleTask (getIPv6 : Bool) (rawLine : String) (ip : IPv4)
    (h0 : trimSpace rawLine ≠ "")
    (h1 : getIPv6 = true ∨ (workingToken (trimSpace rawLine)).data.contains ':' = false)
    (h2 : parseIP (workingToken (trimSpace rawLine)) = some ip) :
    loadInputLine getIPv6 rawLine = [⟨trimSpace rawLine, ipString ip⟩] := by
  have hfilter : (!getIPv6 && (workingToken (trimSpace rawLine)).data.contains ':') = false := by
    rcases h1 with h | h
    · rw [h, Bool.not_true, Bool.false_and]
    · rw [h, Bool.and_false]
  simp only [loadInputLine, classifyToken]
  rw [if_neg h0, hfilter]
  simp [h2]

theorem literalAddressSingleTask_witness :
    trimSpace " http://5.6.7.8/path " ≠ "" ∧
    parseIP (workingToken (trimSpace " http://5.6.7.8/path ")) = some ⟨5, 6, 7, 8⟩ ∧
    loadInputLine false " http://5.6.7.8/path "
      = [⟨trimSpace " http://5.6.7.8/path ", ipString ⟨5, 6, 7, 8⟩⟩] :=
  ⟨by decide, by decide,
    literalAddressSingleTask false " http://5.6.7.8/path " ⟨5, 6, 7, 8⟩ (by decide)
      (Or.inr (by decide)) (by decide)⟩

/-- C6: with IPv6 checking disabled (the default), any line whose working
token contains a colon produces no task at all. -/
theorem ipv6Suppressed (rawLine : String)
    (h : (workingToken (trimSpace rawLine)).data.contains ':' = true) :
    loadInputLine false rawLine = [] := by
  by_cases h0 : trimSpace rawLine = ""
  · simp [loadInputLine, h0]
  · simp only [loadInputLine, classifyToken]
    rw [if_neg h0, h]
    simp

theorem ipv6Suppressed_witness :
    (workingToken (trimSpace "2001:db8::1")).data.contains ':' = true ∧
    loadInputLine false "2001:db8::1" = [] :=
  ⟨by decide, ipv6Suppressed "2001:db8::1" (by decide)⟩

/-- C7: for a non-empty trimmed line beginning with `http`, the
normalizer classifies the URL's host component when URL parsing succeeds
and the untouched line when it fails, before any further classification
(the classification function receives that working token while `Raw`
stays the trimmed original line). -/
theorem urlHostExtraction (getIPv6 : Bool) (rawLine : String)
    (hne : trimSpace rawLine ≠ "")
    (hp : hasHttpStart (trimSpace rawLine) = true) :
    loadInputLine getIPv6 rawLine
      = classifyToken getIPv6 (trimSpace rawLine)
          (match urlParse (trimSpace rawLine) with
           | some u => u.hostname
           | none => trimSpace rawLine) := by
  simp [loadInputLine, workingToken, if_neg hne, hp]

theorem urlHostExtraction_witness :
    loadInputLine false "http://example.com/path"
      = classifyToken false (trimSpace "http://example.com/path")
          (match urlParse (trimSpace "http://example.com/path") with
           | some u => u.hostname
           | none => trimSpace "http://example.com/path") ∧
    (urlParse "http://example.com/path").map GoURL.hostname = some "example.com" ∧
    loadInputLine false "http://example.com/path" = [] :=
  ⟨urlHostExtraction false "http://example.com/path" (by decide) (by decide),
    by decide, by decide⟩

/-- C8: parsing cache contents never aborts on malformed literals — the
result is always the ranges of exactly the well-formed literals, each
line parsed independently — and concretely a cache of one valid literal
and one garbage line yields exactly the valid literal's range. -/
theorem malformedCacheTolerance :
    (∀ contents : String,
      readCacheContents contents
        = CacheParse.ok ((splitNewline contents).filterMap parseCIDR)) ∧
    ∃ r : IPNet, parseCIDR "203.0.113.0/24" = some r ∧
      parseCIDR "this is not a cidr" = none ∧
      readCacheContents "203.0.113.0/24\nthis is not a cidr" = CacheParse.ok [r] := by
  constructor
  · intro contents
    have h := splitNewline_length_pos contents
    simp only [readCacheContents]
    rw [if_neg (by omega)]
  · exact ⟨⟨3405803776, 24⟩, by decide, by decide, by decide⟩

/-- C9: the `fatal("empty cache file")` branch of main is dead code:
splitting any string (the empty one included) on newlines yields at least
one element, so the length-zero test never fires, and an empty cache file
parses to an empty Range Set instead of a fatal error. -/
theorem emptyCacheFatalUnreachable :
    (∀ s : String, 1 ≤ (splitNewline s).length) ∧
    (∀ s : String, readCacheContents s ≠ CacheParse.fatalEmpty) ∧
    readCacheContents "" = CacheParse.ok [] := by
  refine ⟨fun s => splitNewline_length_pos s, ?_, by decide⟩
  intro s
  have h := splitNewline_length_pos s
  simp only [readCacheContents]
  rw [if_neg (by omega)]
  simp

/-- C10: a failed write is invisible to the run.  For any state —
including a nil output handle and an unhealthy file, on which
`writeString` returns an error — a `NoMatch` task still increments the
valid counter (and no other), and the step keeps only the file component
of `writeString`'s result, discarding the error component, exactly as the
Go source drops `WriteString`'s return values; the step is a total
function, so no write failure can abort the run. -/
theorem writeErrorIgnored (ranges : List IPNet) (outputRaw : Bool) (st : StripState)
    (task : E) (i : IPv4)
    (hp : parseIP task.IP = some i)
    (hc : cdn.Check ranges i = false) :
    (stripTask ranges outputRaw st task).validIP = st.validIP + 1 ∧
    (stripTask ranges outputRaw st task).invalidIP = st.invalidIP ∧
    (stripTask ranges outputRaw st task).cdnIP = st.cdnIP ∧
    (stripTask ranges outputRaw st task).outFile
      = (writeString st.outFile ((if outputRaw then task.Raw else ipString i) ++ "\n")).fst := by
  simp [stripTask, hp, hc]

theorem writeErrorIgnored_witness :
    parseIP "1.2.3.4" = some ⟨1, 2, 3, 4⟩ ∧
    (writeString (none : Option FileState) "1.2.3.4\n").snd = Except.error "invalid argument" ∧
    (stripTask [] false ⟨7, 0, 0, none⟩ ⟨"1.2.3.4", "1.2.3.4"⟩).validIP = 7 + 1 :=
  ⟨by decide, rfl,
    (writeErrorIgnored [] false ⟨7, 0, 0, none⟩ ⟨"1.2.3.4", "1.2.3.4"⟩ ⟨1, 2, 3, 4⟩
      (by decide) (by decide)).1⟩
